import Mathlib

/-
Shallow embedding of the keypoint stream stabilizer in
`MEDAI APP/components/pregnancy/PoseDetectionService.js`.

Coordinates, scores and accuracies are modelled as exact rationals (JS
numbers are floats, but every constant in the file is a short decimal and
every operation used is +, -, *, min, max, so the rational model is the
intended real-number semantics of the pipeline).  Time stamps
(`Date.now()`) are integers (milliseconds).  Each call to `Math.random()`
is modelled as one draw from an explicit stream `ℕ → ℚ` of values in
[0,1); independent call sites receive independent streams.  The remote
`axios.post` call is modelled by an oracle `RemoteOutcome` input: either a
successful payload (keypoints and accuracy) or a failure (timeout, network
error, non-success payload — all of which the source funnels into the same
catch branch).  JS exceptions are modelled with `Except`: the inner
try/catch of `processFrame` appears as a `match` on an `Except` value, and
the outer try/catch as the final `match` in `processFrame`.
-/

/-- One tracked position, `{x, y}` in normalized image coordinates. -/
structure Position where
  x : ℚ
  y : ℚ
deriving Repr, DecidableEq

/-- One keypoint: joint name, position and confidence score. -/
structure Keypoint where
  part : String
  position : Position
  score : ℚ
deriving Repr, DecidableEq

/-- Default keypoints for Mountain Pose, `DEFAULT_POSE_KEYPOINTS["1-1"]`. -/
def mountainPoseKeypoints : List Keypoint :=
  [ ⟨"nose", ⟨0.5, 0.1⟩, 1⟩,
    ⟨"left_eye", ⟨0.47, 0.09⟩, 1⟩,
    ⟨"right_eye", ⟨0.53, 0.09⟩, 1⟩,
    ⟨"left_ear", ⟨0.44, 0.1⟩, 1⟩,
    ⟨"right_ear", ⟨0.56, 0.1⟩, 1⟩,
    ⟨"left_shoulder", ⟨0.42, 0.22⟩, 1⟩,
    ⟨"right_shoulder", ⟨0.58, 0.22⟩, 1⟩,
    ⟨"left_elbow", ⟨0.4, 0.38⟩, 1⟩,
    ⟨"right_elbow", ⟨0.6, 0.38⟩, 1⟩,
    ⟨"left_wrist", ⟨0.38, 0.52⟩, 1⟩,
    ⟨"right_wrist", ⟨0.62, 0.52⟩, 1⟩,
    ⟨"left_hip", ⟨0.46, 0.54⟩, 1⟩,
    ⟨"right_hip", ⟨0.54, 0.54⟩, 1⟩,
    ⟨"left_knee", ⟨0.46, 0.74⟩, 1⟩,
    ⟨"right_knee", ⟨0.54, 0.74⟩, 1⟩,
    ⟨"left_ankle", ⟨0.46, 0.94⟩, 1⟩,
    ⟨"right_ankle", ⟨0.54, 0.94⟩, 1⟩ ]

/-- Default keypoints for Cat-Cow Stretch, `DEFAULT_POSE_KEYPOINTS["1-2"]`. -/
def catCowKeypoints : List Keypoint :=
  [ ⟨"nose", ⟨0.5, 0.35⟩, 1⟩,
    ⟨"left_eye", ⟨0.48, 0.33⟩, 1⟩,
    ⟨"right_eye", ⟨0.52, 0.33⟩, 1⟩,
    ⟨"left_ear", ⟨0.46, 0.34⟩, 1⟩,
    ⟨"right_ear", ⟨0.54, 0.34⟩, 1⟩,
    ⟨"left_shoulder", ⟨0.38, 0.4⟩, 1⟩,
    ⟨"right_shoulder", ⟨0.62, 0.4⟩, 1⟩,
    ⟨"left_elbow", ⟨0.3, 0.5⟩, 1⟩,
    ⟨"right_elbow", ⟨0.7, 0.5⟩, 1⟩,
    ⟨"left_wrist", ⟨0.25, 0.6⟩, 1⟩,
    ⟨"right_wrist", ⟨0.75, 0.6⟩, 1⟩,
    ⟨"left_hip", ⟨0.4, 0.65⟩, 1⟩,
    ⟨"right_hip", ⟨0.6, 0.65⟩, 1⟩,
    ⟨"left_knee", ⟨0.35, 0.75⟩, 1⟩,
    ⟨"right_knee", ⟨0.65, 0.75⟩, 1⟩,
    ⟨"left_ankle", ⟨0.3, 0.85⟩, 1⟩,
    ⟨"right_ankle", ⟨0.7, 0.85⟩, 1⟩ ]

/-- The map `DEFAULT_POSE_KEYPOINTS`: pose id to canned default skeleton. -/
def DEFAULT_POSE_KEYPOINTS (poseId : String) : Option (List Keypoint) :=
  if poseId = "1-1" then some mountainPoseKeypoints
  else if poseId = "1-2" then some catCowKeypoints
  else none

/-- Lookup in the `prevKeypointMap` built by `interpolateKeypoints` via
`forEach` assignment: later entries with the same part overwrite earlier
ones, so the map holds, for each part, the last keypoint with that part. -/
def prevKeypointLookup (previousKeypoints : List Keypoint) (part : String) :
    Option Keypoint :=
  previousKeypoints.reverse.find? (fun kp => kp.part == part)

/-- Interpolation of one target keypoint toward which a previous keypoint
with the same part was found (the body of the `map` in
`interpolateKeypoints`). -/
def interpolateOne (prevKp targetKp : Keypoint) (factor : ℚ) : Keypoint :=
  { part := targetKp.part
    position :=
      { x := prevKp.position.x + (targetKp.position.x - prevKp.position.x) * factor
        y := prevKp.position.y + (targetKp.position.y - prevKp.position.y) * factor }
    score := prevKp.score + (targetKp.score - prevKp.score) * factor }

/-- The source function `interpolateKeypoints(previousKeypoints,
targetKeypoints, factor = 0.2)`: for each target keypoint, look up its
part in the map of previous keypoints; pass it through unchanged when the
part is absent, otherwise linearly interpolate position and score. -/
def interpolateKeypoints (previousKeypoints targetKeypoints : List Keypoint)
    (factor : ℚ := 0.2) : List Keypoint :=
  targetKeypoints.map (fun targetKp =>
    match prevKeypointLookup previousKeypoints targetKp.part with
    | none => targetKp
    | some prevKp => interpolateOne prevKp targetKp factor)

/-- In a list whose parts are pairwise distinct, `find?` on the part name
returns exactly the member with that part. -/
theorem find_part_of_nodup (L : List Keypoint)
    (hnd : (L.map Keypoint.part).Nodup) (p : Keypoint) (hp : p ∈ L) :
    L.find? (fun kp => kp.part == p.part) = some p := by
  induction L with
  | nil => cases hp
  | cons a t ih =>
    rw [List.map_cons, List.nodup_cons] at hnd
    rcases List.mem_cons.mp hp with h | h
    · subst h
      simp [List.find?]
    · have hne : a.part ≠ p.part := by
        intro he
        exact hnd.1 (he ▸ List.mem_map_of_mem Keypoint.part h)
      have : (a.part == p.part) = false := by
        simp [hne]
      simp only [List.find?, this]
      exact ih hnd.2 h

/-- With pairwise distinct parts, the previous-keypoint map lookup finds
exactly the member of `previousKeypoints` carrying the requested part. -/
theorem prevKeypointLookup_of_nodup (L : List Keypoint)
    (hnd : (L.map Keypoint.part).Nodup) (p : Keypoint) (hp : p ∈ L) :
    prevKeypointLookup L p.part = some p := by
  unfold prevKeypointLookup
  have hnd' : (L.reverse.map Keypoint.part).Nodup := by
    rw [List.map_reverse]
    exact List.nodup_reverse.mpr hnd
  exact find_part_of_nodup L.reverse hnd' p (List.mem_reverse.mpr hp)

/-- When no previous keypoint carries the requested part, the map lookup
returns nothing. -/
theorem prevKeypointLookup_of_absent (L : List Keypoint) (part : String)
    (habs : ∀ p ∈ L, p.part ≠ part) :
    prevKeypointLookup L part = none := by
  unfold prevKeypointLookup
  rw [List.find?_eq_none]
  intro kp hkp
  simp only [beq_iff_eq]
  exact habs kp (List.mem_reverse.mp hkp)

/-- Output length and per-index characterization of `interpolateKeypoints`. -/
theorem interpolateKeypoints_length (P T : List Keypoint) (f : ℚ) :
    (interpolateKeypoints P T f).length = T.length := by
  unfold interpolateKeypoints
  exact List.length_map _ _

/-- Per-index value of `interpolateKeypoints`. -/
theorem interpolateKeypoints_getElem (P T : List Keypoint) (f : ℚ)
    (i : ℕ) (h1 : i < T.length) (h2 : i < (interpolateKeypoints P T f).length) :
    (interpolateKeypoints P T f)[i] =
      match prevKeypointLookup P (T[i].part) with
      | none => T[i]
      | some prevKp => interpolateOne prevKp (T[i]) f := by
  unfold interpolateKeypoints
  simp [List.getElem_map]

/-- The four visually load-bearing joints that receive smaller jitter in
`addNaturalVariation`. -/
def stablePoints : List String :=
  ["left_shoulder", "right_shoulder", "left_hip", "right_hip"]

/-- The clamp `Math.max(0, Math.min(1, v))`. -/
def clamp01 (v : ℚ) : ℚ := max 0 (min 1 v)

/-- Jitter of one keypoint, the body of the `map` in `addNaturalVariation`:
two fresh uniform draws (indices 2i and 2i+1 of the stream) are shifted to
[-1/2, 1/2), scaled by the variation factor, added to x and y, and the
results clamped back to [0,1].  The `part` and `score` fields are spread
through unchanged. -/
def varyKeypoint (rand : ℕ → ℚ) (i : ℕ) (kp : Keypoint) : Keypoint :=
  let variationFactor : ℚ := if kp.part ∈ stablePoints then 0.002 else 0.005
  let xVariation := (rand (2 * i) - 0.5) * variationFactor
  let yVariation := (rand (2 * i + 1) - 0.5) * variationFactor
  { kp with
    position :=
      { x := clamp01 (kp.position.x + xVariation)
        y := clamp01 (kp.position.y + yVariation) } }

/-- Recursion underlying `addNaturalVariation`: element `i` of the list
consumes draws `2i` and `2i+1` of the random stream. -/
def addNaturalVariationGo (rand : ℕ → ℚ) : ℕ → List Keypoint → List Keypoint
  | _, [] => []
  | i, kp :: rest => varyKeypoint rand i kp :: addNaturalVariationGo rand (i + 1) rest

/-- The source function `addNaturalVariation(keypoints)`: independent small
random jitter on every keypoint, clamped to [0,1], with smaller variation
for the stable (torso-anchor) joints. -/
def addNaturalVariation (rand : ℕ → ℚ) (keypoints : List Keypoint) : List Keypoint :=
  addNaturalVariationGo rand 0 keypoints

theorem addNaturalVariationGo_length (rand : ℕ → ℚ) (j : ℕ) (kps : List Keypoint) :
    (addNaturalVariationGo rand j kps).length = kps.length := by
  induction kps generalizing j with
  | nil => rfl
  | cons kp rest ih => simp [addNaturalVariationGo, ih]

theorem addNaturalVariation_length (rand : ℕ → ℚ) (kps : List Keypoint) :
    (addNaturalVariation rand kps).length = kps.length :=
  addNaturalVariationGo_length rand 0 kps

theorem addNaturalVariationGo_getElem (rand : ℕ → ℚ) (j : ℕ) (kps : List Keypoint)
    (i : ℕ) (h1 : i < kps.length) (h2 : i < (addNaturalVariationGo rand j kps).length) :
    (addNaturalVariationGo rand j kps)[i] = varyKeypoint rand (j + i) (kps[i]) := by
  induction kps generalizing j i with
  | nil => cases h1
  | cons kp rest ih =>
    cases i with
    | zero => simp [addNaturalVariationGo]
    | succ n =>
      have h1' : n < rest.length := Nat.lt_of_succ_lt_succ h1
      have h2' : n < (addNaturalVariationGo rand (j + 1) rest).length := by
        rw [addNaturalVariationGo_length]
        exact h1'
      simp only [addNaturalVariationGo, List.getElem_cons_succ]
      rw [ih (j + 1) n h1' h2']
      ring_nf

theorem addNaturalVariation_getElem (rand : ℕ → ℚ) (kps : List Keypoint)
    (i : ℕ) (h1 : i < kps.length) (h2 : i < (addNaturalVariation rand kps).length) :
    (addNaturalVariation rand kps)[i] = varyKeypoint rand i (kps[i]) := by
  have := addNaturalVariationGo_getElem rand 0 kps i h1 h2
  rwa [Nat.zero_add] at this

/-- Membership form: every element of the jittered list is the jitter of
some element of the input list. -/
theorem addNaturalVariation_mem (rand : ℕ → ℚ) (kps : List Keypoint)
    (kp : Keypoint) (hkp : kp ∈ addNaturalVariation rand kps) :
    ∃ i, ∃ h : i < kps.length, kp = varyKeypoint rand i (kps[i]) := by
  obtain ⟨i, hi, he⟩ := List.getElem_of_mem hkp
  have h1 : i < kps.length := by
    rwa [addNaturalVariation_length] at hi
  exact ⟨i, h1, by rw [← he, addNaturalVariation_getElem rand kps i h1 hi]⟩

/-- Clamped values always land in [0,1]. -/
theorem clamp01_mem (v : ℚ) : 0 ≤ clamp01 v ∧ clamp01 v ≤ 1 := by
  unfold clamp01
  constructor
  · exact le_max_left 0 _
  · rcases le_total 1 v with h | h
    · simp [min_eq_left h]
    · rcases le_total 0 v with h0 | h0
      · rw [min_eq_right h, max_eq_right h0]
        exact h
      · rw [max_eq_left]
        exact zero_le_one
        exact le_trans (min_le_right 1 v) h0

/-- When the starting coordinate is already in [0,1], the clamped jittered
coordinate moves by at most the magnitude of the jitter. -/
theorem clamp01_displacement (x d : ℚ) (hx0 : 0 ≤ x) (hx1 : x ≤ 1) :
    |clamp01 (x + d) - x| ≤ |d| := by
  unfold clamp01
  rcases le_total (x + d) 0 with h | h
  · rw [min_eq_right (le_trans h zero_le_one), max_eq_left h]
    rw [abs_of_nonpos (by linarith), abs_of_nonpos (by linarith)]
    linarith
  · rcases le_total 1 (x + d) with h1 | h1
    · rw [min_eq_left h1, max_eq_right zero_le_one]
      rw [abs_of_nonneg (by linarith), abs_of_nonneg (by linarith)]
      linarith
    · rw [min_eq_right h1, max_eq_right h]
      simp

/-- The module-level `serverHealth` record. -/
structure ServerHealth where
  lastSuccess : ℤ
  failedAttempts : ℕ
  retryInterval : ℤ
deriving Repr, DecidableEq

/-- Initial value of `serverHealth` at module load. -/
def initialServerHealth : ServerHealth :=
  { lastSuccess := 0, failedAttempts := 0, retryInterval := 5000 }

/-- The update performed on `serverHealth` by a successful server call:
`lastSuccess = currentTime; failedAttempts = 0`. -/
def recordSuccess (h : ServerHealth) (currentTime : ℤ) : ServerHealth :=
  { h with lastSuccess := currentTime, failedAttempts := 0 }

/-- The update performed on `serverHealth` by the inner catch:
`failedAttempts++`. -/
def recordFailure (h : ServerHealth) : ServerHealth :=
  { h with failedAttempts := h.failedAttempts + 1 }

/-- The remote-attempt gate at the top of `processFrame`:
`serverHealth.failedAttempts < 3 || currentTime - serverHealth.lastSuccess >
serverHealth.retryInterval`. -/
def shouldAttemptRemote (h : ServerHealth) (currentTime : ℤ) : Bool :=
  h.failedAttempts < 3 || currentTime - h.lastSuccess > h.retryInterval

/-- The module-level mutable state of PoseDetectionService, threaded
explicitly: `lastServerKeypoints`, `lastKeypointsTimestamp`,
`previousFrameKeypoints`, `lastAccuracy` and `serverHealth`. -/
structure ServiceState where
  lastServerKeypoints : Option (List Keypoint)
  lastKeypointsTimestamp : ℤ
  previousFrameKeypoints : Option (List Keypoint)
  lastAccuracy : ℚ
  serverHealth : ServerHealth
deriving Repr, DecidableEq

/-- State of the module after its top-level initializers run. -/
def initialState : ServiceState :=
  { lastServerKeypoints := none
    lastKeypointsTimestamp := 0
    previousFrameKeypoints := none
    lastAccuracy := 50
    serverHealth := initialServerHealth }

/-- What `processFrame` hands back to the renderer:
`{ keypoints, accuracy, fromServer }`. -/
structure FrameResult where
  keypoints : List Keypoint
  accuracy : ℚ
  fromServer : Bool
deriving Repr, DecidableEq

/-- Outcome oracle for the `axios.post` pose-estimation call: a successful
payload carries keypoints and an accuracy; every failure mode (timeout,
network error, HTTP error, or a payload without `success`, which the
source turns into a thrown `Invalid server response format`) lands in the
same inner catch and is one constructor here. -/
inductive RemoteOutcome where
  | success (keypoints : List Keypoint) (accuracy : ℚ)
  | failure
deriving Repr, DecidableEq

/-- Data-URI normalization applied to the outbound image
(`data:image/jpeg;base64,` is prefixed when no `data:image/` scheme is
present).  It affects only the bytes sent to the server, never the
returned keypoints. -/
def normalizeImageData (imageData : String) : String :=
  if imageData.startsWith ("data:image/") then imageData
  else ("data:image/jpeg;base64,") ++ imageData

/-- The body of the inner `try` of `processFrame`, lines 79-138 of the
source: on a successful response, store the server keypoints, timestamp
and accuracy, record success, seed `previousFrameKeypoints` when it was
null, and return the server keypoints directly; on anything else the JS
throws, modelled as `Except.error`. -/
def attemptRemote (outcome : RemoteOutcome) (currentTime : ℤ) (s : ServiceState) :
    Except String (FrameResult × ServiceState) :=
  match outcome with
  | .success kps acc =>
    let s1 : ServiceState :=
      { s with
        lastServerKeypoints := some kps
        lastKeypointsTimestamp := currentTime
        lastAccuracy := acc
        serverHealth := recordSuccess s.serverHealth currentTime }
    let s2 : ServiceState :=
      if s1.previousFrameKeypoints.isNone then
        { s1 with previousFrameKeypoints := some kps }
      else s1
    .ok ({ keypoints := kps, accuracy := acc, fromServer := true }, s2)
  | .failure => .error ("Server request failed")

/-- The default-skeleton choice
`poseId in DEFAULT_POSE_KEYPOINTS ? DEFAULT_POSE_KEYPOINTS[poseId] :
DEFAULT_POSE_KEYPOINTS["1-1"]`: the canned skeleton for the pose, Mountain
Pose when the pose id is unrecognized. -/
def defaultKeypointsFor (poseId : String) : List Keypoint :=
  match DEFAULT_POSE_KEYPOINTS poseId with
  | some kps => kps
  | none => mountainPoseKeypoints

/-- Steps 2-4 of the pipeline, lines 155-198 of the source: interpolate
from the cache when both `lastServerKeypoints` and
`previousFrameKeypoints` are present; otherwise fall back to the canned
default skeleton for the pose (Mountain Pose when the id is unknown).
`randA` feeds the first `addNaturalVariation` call of the branch taken,
`randB` the second one of the default branch, and `randAcc` is the single
`Math.random()` draw perturbing the displayed accuracy. -/
def localFallback (poseId : String) (randA randB : ℕ → ℚ) (randAcc : ℚ)
    (s : ServiceState) : FrameResult × ServiceState :=
  match s.lastServerKeypoints, s.previousFrameKeypoints with
  | some lastKps, some prevKps =>
    let interpolated := interpolateKeypoints prevKps lastKps 0.3
    let keypointsWithVariation := addNaturalVariation randA interpolated
    let randomVariation := (randAcc - 0.5) * 3
    let displayAccuracy := max 0 (min 100 (s.lastAccuracy + randomVariation))
    ({ keypoints := keypointsWithVariation
       accuracy := displayAccuracy
       fromServer := false },
     { s with previousFrameKeypoints := some keypointsWithVariation })
  | _, _ =>
    let defaultKeypoints := defaultKeypointsFor poseId
    let s2 : ServiceState :=
      if s.previousFrameKeypoints.isNone then
        { s with previousFrameKeypoints := some (addNaturalVariation randA defaultKeypoints) }
      else s
    ({ keypoints := addNaturalVariation randB defaultKeypoints
       accuracy := 50
       fromServer := false },
     s2)

/-- Everything inside the outer `try` of `processFrame`: evaluate the
remote-attempt gate; when it passes, run the remote attempt and catch its
failure by recording a failed attempt; then fall through to the local
fallback chain.  The result is an `Except` because the original code can
in principle throw past the inner catch; the theorems show it never
does. -/
def processFrameBody (poseId : String) (outcome : RemoteOutcome)
    (currentTime : ℤ) (randA randB : ℕ → ℚ) (randAcc : ℚ)
    (s : ServiceState) : Except String (FrameResult × ServiceState) :=
  if shouldAttemptRemote s.serverHealth currentTime then
    match attemptRemote outcome currentTime s with
    | .ok r => .ok r
    | .error _ =>
      .ok (localFallback poseId randA randB randAcc
        { s with serverHealth := recordFailure s.serverHealth })
  else
    .ok (localFallback poseId randA randB randAcc s)

/-- The outer catch of `processFrame`, lines 199-217: jitter the previous
previous-frame keypoints when they exist (with the JS-falsy accuracy default
`lastAccuracy || 50`, so an accuracy of exactly 0 becomes 50), else return
the canned default verbatim. -/
def processFrameCatch (poseId : String) (randA : ℕ → ℚ) (s : ServiceState) :
    FrameResult × ServiceState :=
  match s.previousFrameKeypoints with
  | some prevKps =>
    ({ keypoints := addNaturalVariation randA prevKps
       accuracy := if s.lastAccuracy = 0 then 50 else s.lastAccuracy
       fromServer := false },
     s)
  | none =>
    ({ keypoints := defaultKeypointsFor poseId
       accuracy := 50
       fromServer := false },
     s)

/-- The exported `processFrame(imageData, poseId)`: the body wrapped in the
outer try/catch.  The image string takes part only through
`normalizeImageData` on the outbound request. -/
def processFrame (imageData poseId : String) (outcome : RemoteOutcome)
    (currentTime : ℤ) (randA randB : ℕ → ℚ) (randAcc : ℚ)
    (s : ServiceState) : FrameResult × ServiceState :=
  let _outbound := normalizeImageData imageData
  match processFrameBody poseId outcome currentTime randA randB randAcc s with
  | .ok r => r
  | .error _ => processFrameCatch poseId randA s

/-- The exported `resetPoseData()`: clears the keypoint caches and resets
the accuracy and timestamp.  It does not touch `serverHealth`. -/
def resetPoseData (s : ServiceState) : ServiceState :=
  { s with
    lastServerKeypoints := none
    lastKeypointsTimestamp := 0
    previousFrameKeypoints := none
    lastAccuracy := 50 }

/-- C3: the remote-attempt gate passes exactly when `failedAttempts < 3` or
the elapsed time since `lastSuccess` strictly exceeds the retry interval;
after three consecutive recorded failures following a success (retry
interval 5000 ms), the gate passes only once more than 5000 ms have
elapsed since that success. -/
theorem shouldAttemptRemote_spec :
    (∀ (h : ServerHealth) (t : ℤ),
      shouldAttemptRemote h t = true ↔
        (h.failedAttempts < 3 ∨ h.retryInterval < t - h.lastSuccess)) ∧
    (∀ (h : ServerHealth) (t : ℤ), h.retryInterval = 5000 →
      (recordFailure (recordFailure (recordFailure (recordSuccess h t)))).failedAttempts = 3 ∧
      ∀ t' : ℤ,
        (shouldAttemptRemote
            (recordFailure (recordFailure (recordFailure (recordSuccess h t)))) t' = true ↔
          5000 < t' - t)) := by
  constructor
  · intro h t
    simp [shouldAttemptRemote]
  · intro h t hri
    refine ⟨rfl, ?_⟩
    intro t'
    simp [shouldAttemptRemote, recordFailure, recordSuccess, hri]

/-- Witness for C3 at a concrete health state: a success at time 100
followed by three failures leaves the gate closed at time 5100 and open at
time 5101. -/
theorem shouldAttemptRemote_spec_witness :
    (recordFailure (recordFailure (recordFailure
        (recordSuccess initialServerHealth 100)))).failedAttempts = 3 ∧
    shouldAttemptRemote (recordFailure (recordFailure (recordFailure
        (recordSuccess initialServerHealth 100)))) 5100 = false ∧
    shouldAttemptRemote (recordFailure (recordFailure (recordFailure
        (recordSuccess initialServerHealth 100)))) 5101 = true := by
  have h := shouldAttemptRemote_spec.2 initialServerHealth 100 rfl
  refine ⟨h.1, ?_, ?_⟩
  · have h2 := h.2 5100
    rcases hb : shouldAttemptRemote (recordFailure (recordFailure (recordFailure
        (recordSuccess initialServerHealth 100)))) 5100 with _ | _
    · rfl
    · exact absurd (h2.mp hb) (by decide)
  · exact (h.2 5101).mpr (by decide)

/-- C10: before any recorded success `lastSuccess` holds its initial value
0, so for any realistic clock value (strictly beyond the 5000 ms retry
interval, as every `Date.now()` reading is) the gate passes no matter how
many consecutive failures are recorded, `recordFailure` never changes
`lastSuccess`, and a closed gate can only happen within the retry window
of the last recorded success with at least three failures on record. -/
theorem gate_before_first_success :
    (∀ (h : ServerHealth) (t : ℤ), h.lastSuccess = 0 → h.retryInterval < t →
      shouldAttemptRemote h t = true) ∧
    (∀ h : ServerHealth, (recordFailure h).lastSuccess = h.lastSuccess) ∧
    initialServerHealth.lastSuccess = 0 ∧
    initialServerHealth.retryInterval = 5000 ∧
    (∀ (imageData poseId : String) (kps : List Keypoint) (acc : ℚ) (t : ℤ)
      (randA randB : ℕ → ℚ) (randAcc : ℚ) (s : ServiceState),
      s.serverHealth.lastSuccess = 0 → s.serverHealth.retryInterval < t →
      (processFrame imageData poseId (.success kps acc) t randA randB randAcc s).1.fromServer
        = true) ∧
    (∀ (h : ServerHealth) (t : ℤ), shouldAttemptRemote h t = false →
      3 ≤ h.failedAttempts ∧ t - h.lastSuccess ≤ h.retryInterval) := by
  have hgate : ∀ (h : ServerHealth) (t : ℤ), h.lastSuccess = 0 → h.retryInterval < t →
      shouldAttemptRemote h t = true := by
    intro h t h0 hlt
    simp [shouldAttemptRemote, h0]
    omega
  refine ⟨hgate, fun h => rfl, rfl, rfl, ?_, ?_⟩
  · intro imageData poseId kps acc t randA randB randAcc s h0 hlt
    have hg := hgate s.serverHealth t h0 hlt
    simp [processFrame, processFrameBody, attemptRemote, hg]
  · intro h t hfalse
    simp [shouldAttemptRemote] at hfalse
    omega

/-- Witness for C10: with ten consecutive failures on record and no
success ever, the frame at clock 1700000000000 still goes to the server. -/
theorem gate_before_first_success_witness :
    (processFrame ("img") ("1-1")
        (.success [⟨"nose", ⟨0.5, 0.5⟩, 1⟩] 82) 1700000000000
        (fun _ => 1/2) (fun _ => 1/2) (1/2)
        { initialState with
          serverHealth := { lastSuccess := 0, failedAttempts := 10, retryInterval := 5000 } }).1.fromServer
      = true := by
  exact gate_before_first_success.2.2.2.2.1 ("img") ("1-1") [⟨"nose", ⟨0.5, 0.5⟩, 1⟩] 82
    1700000000000 (fun _ => 1/2) (fun _ => 1/2) (1/2) _ rfl (by decide)

/-- C8 counterexample: `resetPoseData` leaves the server-health record
untouched, so a state carrying two failed attempts and a success stamp
keeps them across the reset, contradicting the claim that the failure
count returns to 0 and the success timestamp is cleared. -/
theorem resetPoseData_health_counterexample :
    ¬((resetPoseData
        { initialState with
          serverHealth := { lastSuccess := 123, failedAttempts := 2, retryInterval := 5000 } }).serverHealth.failedAttempts = 0 ∧
      (resetPoseData
        { initialState with
          serverHealth := { lastSuccess := 123, failedAttempts := 2, retryInterval := 5000 } }).serverHealth.lastSuccess = 0) := by
  decide

/-- C8 amended: `resetPoseData` clears `lastServerKeypoints` and
`previousFrameKeypoints`, resets `lastAccuracy` to 50 and
`lastKeypointsTimestamp` to 0, and leaves the health state
(`failedAttempts`, `lastSuccess`, `retryInterval`) exactly as it was. -/
theorem resetPoseData_spec (s : ServiceState) :
    (resetPoseData s).lastServerKeypoints = none ∧
    (resetPoseData s).previousFrameKeypoints = none ∧
    (resetPoseData s).lastAccuracy = 50 ∧
    (resetPoseData s).lastKeypointsTimestamp = 0 ∧
    (resetPoseData s).serverHealth = s.serverHealth :=
  ⟨rfl, rfl, rfl, rfl, rfl⟩

/-- C9 counterexample: called without a factor, `interpolateKeypoints`
does not behave as with factor 0.3 — the default is 0.2, so from x = 0
toward x = 1 the omitted-factor call lands at 0.2, not 0.3. -/
theorem interpolate_default_factor_counterexample :
    interpolateKeypoints [⟨"nose", ⟨0, 0⟩, 0⟩] [⟨"nose", ⟨1, 1⟩, 1⟩] ≠
      interpolateKeypoints [⟨"nose", ⟨0, 0⟩, 0⟩] [⟨"nose", ⟨1, 1⟩, 1⟩] 0.3 := by
  intro he
  have hl : prevKeypointLookup [(⟨"nose", ⟨0, 0⟩, 0⟩ : Keypoint)] "nose" =
      some ⟨"nose", ⟨0, 0⟩, 0⟩ := by
    have h := prevKeypointLookup_of_nodup [(⟨"nose", ⟨0, 0⟩, 0⟩ : Keypoint)]
      (by simp) ⟨"nose", ⟨0, 0⟩, 0⟩ (by simp)
    simpa using h
  have hx := congrArg (fun L => (L.headD ⟨"", ⟨0, 0⟩, 0⟩).position.x) he
  simp only [interpolateKeypoints, List.map_cons, List.map_nil, hl,
    List.headD_cons, interpolateOne] at hx
  norm_num at hx

/-- C9 amended: the default smoothing factor of `interpolateKeypoints` is
0.2, so a call without an explicit factor closes 20% of the remaining gap
per step (the call site in the pipeline passes 0.3 explicitly). -/
theorem interpolate_default_factor (P T : List Keypoint) :
    interpolateKeypoints P T = interpolateKeypoints P T 0.2 ∧
    ((P.map Keypoint.part).Nodup →
      ∀ (i : ℕ)
        (h1 : i < T.length) (h2 : i < (interpolateKeypoints P T).length)
        (p : Keypoint), p ∈ P → p.part = T[i].part →
        (interpolateKeypoints P T)[i].position.x - p.position.x =
          (T[i].position.x - p.position.x) * 0.2) := by
  refine ⟨rfl, ?_⟩
  intro hnd i h1 h2 p hp hpart
  have hl := prevKeypointLookup_of_nodup P hnd p hp
  rw [hpart] at hl
  rw [interpolateKeypoints_getElem P T 0.2 i h1 h2, hl]
  simp [interpolateOne]

/-- Witness for the amended C9 claim: from x = 0 toward x = 1 the
omitted-factor call moves by exactly (1 - 0) * 0.2. -/
theorem interpolate_default_factor_witness :
    ((interpolateKeypoints [⟨"nose", ⟨0, 0⟩, 0⟩] [⟨"nose", ⟨1, 1⟩, 1⟩]).get
        ⟨0, by decide⟩).position.x - (0 : ℚ) = ((1 : ℚ) - 0) * 0.2 := by
  have h := (interpolate_default_factor [⟨"nose", ⟨0, 0⟩, 0⟩] [⟨"nose", ⟨1, 1⟩, 1⟩]).2
    (by decide) 0 (by decide) (by decide) ⟨"nose", ⟨0, 0⟩, 0⟩ (by decide) rfl
  simpa using h

/-- C4: `interpolateKeypoints` produces one output per target keypoint in
target order, matches previous keypoints by joint name, passes a target
through unchanged when its part is absent from the previous set, and
otherwise linearly interpolates x, y and score from the previous keypoint
with that name toward the target.  The previous set is assumed to carry
one entry per joint name, the Keypoint Set data-model invariant. -/
theorem interpolateKeypoints_spec (P T : List Keypoint) (f : ℚ)
    (hnd : (P.map Keypoint.part).Nodup) :
    (interpolateKeypoints P T f).length = T.length ∧
    ∀ (i : ℕ) (h1 : i < T.length) (h2 : i < (interpolateKeypoints P T f).length),
      ((∀ p ∈ P, p.part ≠ T[i].part) → (interpolateKeypoints P T f)[i] = T[i]) ∧
      (∀ p ∈ P, p.part = T[i].part →
        (interpolateKeypoints P T f)[i] =
          { part := T[i].part
            position :=
              { x := p.position.x + (T[i].position.x - p.position.x) * f
                y := p.position.y + (T[i].position.y - p.position.y) * f }
            score := p.score + (T[i].score - p.score) * f }) := by
  refine ⟨interpolateKeypoints_length P T f, ?_⟩
  intro i h1 h2
  constructor
  · intro habs
    rw [interpolateKeypoints_getElem P T f i h1 h2,
      prevKeypointLookup_of_absent P (T[i].part) habs]
  · intro p hp hpart
    have hl := prevKeypointLookup_of_nodup P hnd p hp
    rw [hpart] at hl
    rw [interpolateKeypoints_getElem P T f i h1 h2, hl]
    rfl

/-- Witness for C4: halfway interpolation of the nose from (0,0,0) toward
(1,1,1) lands at (1/2,1/2) with score 1/2. -/
theorem interpolateKeypoints_spec_witness :
    (interpolateKeypoints [⟨"nose", ⟨0, 0⟩, 0⟩] [⟨"nose", ⟨1, 1⟩, 1⟩] (1/2)).get
        ⟨0, by decide⟩ = ⟨"nose", ⟨1/2, 1/2⟩, 1/2⟩ := by
  have h := ((interpolateKeypoints_spec [⟨"nose", ⟨0, 0⟩, 0⟩] [⟨"nose", ⟨1, 1⟩, 1⟩] (1/2)
      (by simp)).2 0 (by decide) (by decide)).2 ⟨"nose", ⟨0, 0⟩, 0⟩ (by simp) rfl
  simp only [List.get_eq_getElem, h, List.getElem_cons_zero, Keypoint.mk.injEq,
    Position.mk.injEq]
  norm_num

/-- Linear interpolation with a factor in [0,1] stays between its
endpoints. -/
theorem lerp_between (a b f : ℚ) (hf0 : 0 ≤ f) (hf1 : f ≤ 1) :
    min a b ≤ a + (b - a) * f ∧ a + (b - a) * f ≤ max a b := by
  rcases le_total a b with h | h
  · rw [min_eq_left h, max_eq_right h]
    constructor <;> nlinarith
  · rw [min_eq_right h, max_eq_left h]
    constructor <;> nlinarith

/-- Interpolating a keypoint toward itself returns it unchanged. -/
theorem interpolateOne_self (k : Keypoint) (f : ℚ) : interpolateOne k k f = k := by
  obtain ⟨prt, ⟨px, py⟩, sc⟩ := k
  simp [interpolateOne]

/-- C6: for keypoint sets with one entry per joint name, every coordinate
(x, y and score) produced by interpolation with a factor in (0,1] lies
between the corresponding coordinates of the matched previous keypoint and
the target keypoint, and interpolating a set toward itself returns it
unchanged. -/
theorem interpolate_no_overshoot_and_self :
    (∀ (A B : List Keypoint) (f : ℚ), 0 < f → f ≤ 1 →
      (A.map Keypoint.part).Nodup →
      ∀ (i : ℕ) (h1 : i < B.length) (h2 : i < (interpolateKeypoints A B f).length),
      ∀ p ∈ A, p.part = B[i].part →
        (min p.position.x (B[i].position.x) ≤ (interpolateKeypoints A B f)[i].position.x ∧
          (interpolateKeypoints A B f)[i].position.x ≤ max p.position.x (B[i].position.x)) ∧
        (min p.position.y (B[i].position.y) ≤ (interpolateKeypoints A B f)[i].position.y ∧
          (interpolateKeypoints A B f)[i].position.y ≤ max p.position.y (B[i].position.y)) ∧
        (min p.score (B[i].score) ≤ (interpolateKeypoints A B f)[i].score ∧
          (interpolateKeypoints A B f)[i].score ≤ max p.score (B[i].score))) ∧
    (∀ (A : List Keypoint) (f : ℚ), 0 < f → f ≤ 1 →
      (A.map Keypoint.part).Nodup → interpolateKeypoints A A f = A) := by
  constructor
  · intro A B f hf0 hf1 hnd i h1 h2 p hp hpart
    have hl := prevKeypointLookup_of_nodup A hnd p hp
    rw [hpart] at hl
    rw [interpolateKeypoints_getElem A B f i h1 h2, hl]
    simp only [interpolateOne]
    exact ⟨lerp_between p.position.x (B[i].position.x) f (le_of_lt hf0) hf1,
      lerp_between p.position.y (B[i].position.y) f (le_of_lt hf0) hf1,
      lerp_between p.score (B[i].score) f (le_of_lt hf0) hf1⟩
  · intro A f hf0 hf1 hnd
    apply List.ext_getElem (interpolateKeypoints_length A A f)
    intro i h2 h1
    have hmem : A[i] ∈ A := List.getElem_mem h1
    rw [interpolateKeypoints_getElem A A f i h1 h2,
      prevKeypointLookup_of_nodup A hnd (A[i]) hmem]
    exact interpolateOne_self (A[i]) f

/-- Witness for C6: interpolating the one-joint set at (1/4, 3/4) toward
itself with factor 1/2 returns it unchanged, and the interpolated
x-coordinate stays between the endpoints. -/
theorem interpolate_no_overshoot_and_self_witness :
    interpolateKeypoints [⟨"nose", ⟨1/4, 3/4⟩, 1⟩] [⟨"nose", ⟨1/4, 3/4⟩, 1⟩] (1/2) =
        [⟨"nose", ⟨1/4, 3/4⟩, 1⟩] ∧
    (min (0 : ℚ) (([(⟨"nose", ⟨1, 1⟩, 1⟩ : Keypoint)])[0].position.x) ≤
        ((interpolateKeypoints [⟨"nose", ⟨0, 0⟩, 0⟩] [⟨"nose", ⟨1, 1⟩, 1⟩] (1/2)).get
          ⟨0, by decide⟩).position.x) := by
  constructor
  · exact interpolate_no_overshoot_and_self.2 [⟨"nose", ⟨1/4, 3/4⟩, 1⟩] (1/2)
      (by norm_num) (by norm_num) (by simp)
  · have h := (interpolate_no_overshoot_and_self.1 [⟨"nose", ⟨0, 0⟩, 0⟩]
      [⟨"nose", ⟨1, 1⟩, 1⟩] (1/2) (by norm_num) (by norm_num) (by simp)
      0 (by decide) (by decide) ⟨"nose", ⟨0, 0⟩, 0⟩ (by simp) rfl).1.1
    simpa using h

/-- A uniform draw in [0,1), shifted by one half and scaled by a
nonnegative factor, has magnitude at most half the factor. -/
theorem jitter_abs_le (r v : ℚ) (hr0 : 0 ≤ r) (hr1 : r < 1) (hv : 0 ≤ v) :
    |(r - 0.5) * v| ≤ v / 2 := by
  rw [abs_mul, abs_of_nonneg hv]
  have habs : |r - 0.5| ≤ 0.5 := by
    rw [abs_le]
    constructor <;> norm_num <;> linarith
  nlinarith [abs_nonneg (r - 0.5)]

/-- One jittered coordinate stays in [0,1] and moves from an in-range
starting coordinate by at most half the variation factor. -/
theorem vary_coord_spec (x r v : ℚ) (hx0 : 0 ≤ x) (hx1 : x ≤ 1)
    (hr0 : 0 ≤ r) (hr1 : r < 1) (hv : 0 ≤ v) :
    0 ≤ clamp01 (x + (r - 0.5) * v) ∧ clamp01 (x + (r - 0.5) * v) ≤ 1 ∧
    |clamp01 (x + (r - 0.5) * v) - x| ≤ v / 2 := by
  obtain ⟨c0, c1⟩ := clamp01_mem (x + (r - 0.5) * v)
  exact ⟨c0, c1,
    le_trans (clamp01_displacement x ((r - 0.5) * v) hx0 hx1) (jitter_abs_le r v hr0 hr1 hv)⟩

/-- C7: with uniform draws in [0,1) and input coordinates satisfying the
data-model invariant x, y in [0,1], every keypoint output by
`addNaturalVariation` keeps its part and score unchanged, has x and y in
[0,1], and is displaced from its input by at most 0.001 per coordinate for
the four torso-anchor joints and at most 0.0025 for all other joints. -/
theorem addNaturalVariation_spec (rand : ℕ → ℚ) (kps : List Keypoint)
    (hr : ∀ n, 0 ≤ rand n ∧ rand n < 1)
    (hin : ∀ kp ∈ kps, 0 ≤ kp.position.x ∧ kp.position.x ≤ 1 ∧
      0 ≤ kp.position.y ∧ kp.position.y ≤ 1) :
    (addNaturalVariation rand kps).length = kps.length ∧
    ∀ (i : ℕ) (h1 : i < kps.length) (h2 : i < (addNaturalVariation rand kps).length),
      (addNaturalVariation rand kps)[i].part = kps[i].part ∧
      (addNaturalVariation rand kps)[i].score = kps[i].score ∧
      0 ≤ (addNaturalVariation rand kps)[i].position.x ∧
      (addNaturalVariation rand kps)[i].position.x ≤ 1 ∧
      0 ≤ (addNaturalVariation rand kps)[i].position.y ∧
      (addNaturalVariation rand kps)[i].position.y ≤ 1 ∧
      |(addNaturalVariation rand kps)[i].position.x - kps[i].position.x| ≤
        (if kps[i].part ∈ stablePoints then 0.001 else 0.0025) ∧
      |(addNaturalVariation rand kps)[i].position.y - kps[i].position.y| ≤
        (if kps[i].part ∈ stablePoints then 0.001 else 0.0025) := by
  refine ⟨addNaturalVariation_length rand kps, ?_⟩
  intro i h1 h2
  rw [addNaturalVariation_getElem rand kps i h1 h2]
  obtain ⟨hx0, hx1, hy0, hy1⟩ := hin (kps[i]) (List.getElem_mem h1)
  by_cases hst : kps[i].part ∈ stablePoints
  · have hx := vary_coord_spec (kps[i].position.x) (rand (2 * i)) 0.002 hx0 hx1
      (hr (2 * i)).1 (hr (2 * i)).2 (by norm_num)
    have hy := vary_coord_spec (kps[i].position.y) (rand (2 * i + 1)) 0.002 hy0 hy1
      (hr (2 * i + 1)).1 (hr (2 * i + 1)).2 (by norm_num)
    simp only [varyKeypoint, if_pos hst]
    refine ⟨by trivial, by trivial, hx.1, hx.2.1, hy.1, hy.2.1, ?_, ?_⟩
    · exact le_trans hx.2.2 (by norm_num)
    · exact le_trans hy.2.2 (by norm_num)
  · have hx := vary_coord_spec (kps[i].position.x) (rand (2 * i)) 0.005 hx0 hx1
      (hr (2 * i)).1 (hr (2 * i)).2 (by norm_num)
    have hy := vary_coord_spec (kps[i].position.y) (rand (2 * i + 1)) 0.005 hy0 hy1
      (hr (2 * i + 1)).1 (hr (2 * i + 1)).2 (by norm_num)
    simp only [varyKeypoint, if_neg hst]
    refine ⟨by trivial, by trivial, hx.1, hx.2.1, hy.1, hy.2.1, ?_, ?_⟩
    · exact le_trans hx.2.2 (by norm_num)
    · exact le_trans hy.2.2 (by norm_num)

/-- Witness for C7 on a one-joint torso-anchor set with the constant draw
one half: the jitter vanishes, the part survives, and the length is
preserved. -/
theorem addNaturalVariation_spec_witness :
    (addNaturalVariation (fun _ => (1 : ℚ)/2) [⟨"left_hip", ⟨0.5, 0.5⟩, 1⟩]).length = 1 ∧
    ((addNaturalVariation (fun _ => (1 : ℚ)/2) [⟨"left_hip", ⟨0.5, 0.5⟩, 1⟩]).get
        ⟨0, by decide⟩).part = "left_hip" := by
  have h := addNaturalVariation_spec (fun _ => (1 : ℚ)/2) [⟨"left_hip", ⟨0.5, 0.5⟩, 1⟩]
    (fun n => by norm_num)
    (by
      intro kp hkp
      simp only [List.mem_singleton] at hkp
      subst hkp
      refine ⟨by norm_num, by norm_num, by norm_num, by norm_num⟩)
  refine ⟨h.1, ?_⟩
  have h2 := (h.2 0 (by decide) (by decide)).1
  simp only [List.get_eq_getElem, h2, List.getElem_cons_zero]

/-- Full evaluation of `processFrame` on a successful remote outcome when
the gate passes: the server keypoints and accuracy are stored and returned
directly, the health record notes the success, and the displayed-keypoints
cache is seeded exactly when it was empty. -/
theorem processFrame_success_eq (imageData poseId : String)
    (kps : List Keypoint) (acc : ℚ) (t : ℤ) (randA randB : ℕ → ℚ) (randAcc : ℚ)
    (s : ServiceState) (hgate : shouldAttemptRemote s.serverHealth t = true) :
    processFrame imageData poseId (.success kps acc) t randA randB randAcc s =
      ({ keypoints := kps, accuracy := acc, fromServer := true },
       { lastServerKeypoints := some kps
         lastKeypointsTimestamp := t
         previousFrameKeypoints := some (s.previousFrameKeypoints.getD kps)
         lastAccuracy := acc
         serverHealth :=
           { lastSuccess := t
             failedAttempts := 0
             retryInterval := s.serverHealth.retryInterval } }) := by
  obtain ⟨ls, ts, pf, la, ⟨lsu, fa, ri⟩⟩ := s
  cases pf with
  | none =>
    simp [processFrame, processFrameBody, attemptRemote, hgate, recordSuccess,
      Option.getD]
  | some P =>
    simp [processFrame, processFrameBody, attemptRemote, hgate, recordSuccess,
      Option.getD]

/-- C2: when the gate passes and the remote call succeeds, `processFrame`
returns exactly the server keypoints and accuracy with `fromServer = true`
(no interpolation, no variation), stores them as the confirmed keypoints
and accuracy, resets the consecutive-failure count to 0, records the
success time, and seeds the displayed-keypoints cache when it was empty
while leaving it untouched otherwise. -/
theorem processFrame_server_success_spec (imageData poseId : String)
    (kps : List Keypoint) (acc : ℚ) (t : ℤ) (randA randB : ℕ → ℚ) (randAcc : ℚ)
    (s : ServiceState) (hgate : shouldAttemptRemote s.serverHealth t = true) :
    (processFrame imageData poseId (.success kps acc) t randA randB randAcc s).1 =
      { keypoints := kps, accuracy := acc, fromServer := true } ∧
    (processFrame imageData poseId (.success kps acc) t randA randB randAcc s).2.lastServerKeypoints = some kps ∧
    (processFrame imageData poseId (.success kps acc) t randA randB randAcc s).2.lastAccuracy = acc ∧
    (processFrame imageData poseId (.success kps acc) t randA randB randAcc s).2.serverHealth.failedAttempts = 0 ∧
    (processFrame imageData poseId (.success kps acc) t randA randB randAcc s).2.serverHealth.lastSuccess = t ∧
    (processFrame imageData poseId (.success kps acc) t randA randB randAcc s).2.previousFrameKeypoints =
      some (s.previousFrameKeypoints.getD kps) := by
  rw [processFrame_success_eq imageData poseId kps acc t randA randB randAcc s hgate]
  exact ⟨rfl, rfl, rfl, rfl, rfl, rfl⟩

/-- Witness for C2: a fresh session receiving an 82%-accuracy nose
keypoint at time 6000 returns it verbatim with `fromServer = true` and a
zeroed failure count. -/
theorem processFrame_server_success_spec_witness :
    (processFrame ("img") ("1-1") (.success [⟨"nose", ⟨0.5, 0.5⟩, 1⟩] 82) 6000
        (fun _ => 1/2) (fun _ => 1/2) (1/2) initialState).1 =
      { keypoints := [⟨"nose", ⟨0.5, 0.5⟩, 1⟩], accuracy := 82, fromServer := true } ∧
    (processFrame ("img") ("1-1") (.success [⟨"nose", ⟨0.5, 0.5⟩, 1⟩] 82) 6000
        (fun _ => 1/2) (fun _ => 1/2) (1/2) initialState).2.serverHealth.failedAttempts = 0 := by
  have h := processFrame_server_success_spec ("img") ("1-1") [⟨"nose", ⟨0.5, 0.5⟩, 1⟩] 82 6000
    (fun _ => 1/2) (fun _ => 1/2) (1/2) initialState (by decide)
  exact ⟨h.1, h.2.2.2.1⟩

/-- Shape of the local fallback: it never claims to be fresh from the
server, and its keypoints are either the jittered interpolation of the
cached pair or the jittered canned default skeleton. -/
theorem localFallback_shape (poseId : String) (randA randB : ℕ → ℚ) (randAcc : ℚ)
    (s : ServiceState) :
    (localFallback poseId randA randB randAcc s).1.fromServer = false ∧
    ((∃ prevKps lastKps,
        s.lastServerKeypoints = some lastKps ∧
        s.previousFrameKeypoints = some prevKps ∧
        (localFallback poseId randA randB randAcc s).1.keypoints =
          addNaturalVariation randA (interpolateKeypoints prevKps lastKps 0.3)) ∨
      (localFallback poseId randA randB randAcc s).1.keypoints =
        addNaturalVariation randB (defaultKeypointsFor poseId)) := by
  obtain ⟨ls, ts, pf, la, sh⟩ := s
  cases ls with
  | some lastKps =>
    cases pf with
    | some prevKps => exact ⟨rfl, Or.inl ⟨prevKps, lastKps, rfl, rfl, rfl⟩⟩
    | none => exact ⟨rfl, Or.inr rfl⟩
  | none =>
    cases pf with
    | some prevKps => exact ⟨rfl, Or.inr rfl⟩
    | none => exact ⟨rfl, Or.inr rfl⟩

/-- The body of `processFrame` never leaves an error for the outer catch,
and the value of `processFrame` is the value of the body; on top of that, the
result is either fresh from the server or one of the local fallback
shapes. -/
theorem processFrame_eq_body (imageData poseId : String) (outcome : RemoteOutcome)
    (t : ℤ) (randA randB : ℕ → ℚ) (randAcc : ℚ) (s : ServiceState) :
    ∃ r : FrameResult × ServiceState,
      processFrameBody poseId outcome t randA randB randAcc s = .ok r ∧
      processFrame imageData poseId outcome t randA randB randAcc s = r ∧
      (r.1.fromServer = true ∨
        (∃ prevKps lastKps,
          s.lastServerKeypoints = some lastKps ∧
          s.previousFrameKeypoints = some prevKps ∧
          r.1.keypoints = addNaturalVariation randA (interpolateKeypoints prevKps lastKps 0.3)) ∨
        r.1.keypoints = addNaturalVariation randB (defaultKeypointsFor poseId)) := by
  have hbody : ∃ r : FrameResult × ServiceState,
      processFrameBody poseId outcome t randA randB randAcc s = .ok r ∧
      (r.1.fromServer = true ∨
        (∃ prevKps lastKps,
          s.lastServerKeypoints = some lastKps ∧
          s.previousFrameKeypoints = some prevKps ∧
          r.1.keypoints = addNaturalVariation randA (interpolateKeypoints prevKps lastKps 0.3)) ∨
        r.1.keypoints = addNaturalVariation randB (defaultKeypointsFor poseId)) := by
    unfold processFrameBody
    by_cases hgate : shouldAttemptRemote s.serverHealth t = true
    · rw [if_pos hgate]
      cases outcome with
      | success kps acc => exact ⟨_, rfl, Or.inl rfl⟩
      | failure =>
        obtain ⟨hfs, hshape⟩ := localFallback_shape poseId randA randB randAcc
          { s with serverHealth := recordFailure s.serverHealth }
        exact ⟨_, rfl, Or.inr hshape⟩
    · rw [if_neg hgate]
      obtain ⟨hfs, hshape⟩ := localFallback_shape poseId randA randB randAcc s
      exact ⟨_, rfl, Or.inr hshape⟩
  obtain ⟨r, hok, hshape⟩ := hbody
  refine ⟨r, hok, ?_, hshape⟩
  simp only [processFrame, hok]

/-- C1: `processFrame` never surfaces an error: for every image string,
pose id, remote outcome, clock value, random stream and session state, the
inner body already resolves to a result (the outer catch is never
exercised) and the returned record is either the fresh server payload or
one of the fallback keypoint sets (interpolated cache or canned default
skeleton, jittered). -/
theorem processFrame_no_error (imageData poseId : String) (outcome : RemoteOutcome)
    (t : ℤ) (randA randB : ℕ → ℚ) (randAcc : ℚ) (s : ServiceState) :
    ∃ r : FrameResult × ServiceState,
      processFrameBody poseId outcome t randA randB randAcc s = .ok r ∧
      processFrame imageData poseId outcome t randA randB randAcc s = r ∧
      (r.1.fromServer = true ∨
        (∃ prevKps lastKps,
          s.lastServerKeypoints = some lastKps ∧
          s.previousFrameKeypoints = some prevKps ∧
          r.1.keypoints = addNaturalVariation randA (interpolateKeypoints prevKps lastKps 0.3)) ∨
        r.1.keypoints = addNaturalVariation randB (defaultKeypointsFor poseId)) :=
  processFrame_eq_body imageData poseId outcome t randA randB randAcc s

/-- Both coordinates of a jittered keypoint are clamped into [0,1],
whatever the input coordinates and draws were. -/
theorem varyKeypoint_range (rand : ℕ → ℚ) (i : ℕ) (kp : Keypoint) :
    0 ≤ (varyKeypoint rand i kp).position.x ∧ (varyKeypoint rand i kp).position.x ≤ 1 ∧
    0 ≤ (varyKeypoint rand i kp).position.y ∧ (varyKeypoint rand i kp).position.y ≤ 1 := by
  simp only [varyKeypoint]
  exact ⟨(clamp01_mem _).1, (clamp01_mem _).2, (clamp01_mem _).1, (clamp01_mem _).2⟩

/-- Every keypoint produced by `addNaturalVariation` has both coordinates
in [0,1]. -/
theorem addNaturalVariation_range (rand : ℕ → ℚ) (kps : List Keypoint) :
    ∀ kp ∈ addNaturalVariation rand kps,
      0 ≤ kp.position.x ∧ kp.position.x ≤ 1 ∧
      0 ≤ kp.position.y ∧ kp.position.y ≤ 1 := by
  intro kp hkp
  obtain ⟨i, hi, he⟩ := addNaturalVariation_mem rand kps kp hkp
  rw [he]
  exact varyKeypoint_range rand i (kps[i])

/-- C5 counterexample: the fresh-server branch returns the server
keypoints verbatim, without clamping, so a server payload carrying
x = 3/2 flows straight through `processFrame` and violates the claimed
[0,1] invariant. -/
theorem processFrame_clamp_counterexample :
    ¬(∀ kp ∈ (processFrame ("img") ("1-1")
          (.success [⟨"nose", ⟨3/2, 1/2⟩, 1⟩] 82) 6000
          (fun _ => 1/2) (fun _ => 1/2) (1/2) initialState).1.keypoints,
        0 ≤ kp.position.x ∧ kp.position.x ≤ 1 ∧
        0 ≤ kp.position.y ∧ kp.position.y ≤ 1) := by
  intro hall
  have heq := processFrame_success_eq ("img") ("1-1") [⟨"nose", ⟨3/2, 1/2⟩, 1⟩] 82 6000
    (fun _ => 1/2) (fun _ => 1/2) (1/2) initialState (by decide)
  rw [heq] at hall
  have h := hall ⟨"nose", ⟨3/2, 1/2⟩, 1⟩ (by simp)
  norm_num at h

/-- C5 amended: every keypoint set returned through a branch that is not
fresh-from-server (`fromServer = false`: interpolated cache, canned
default, or last-used keypoints) has every x and y clamped into [0,1];
the fresh-server branch passes the server coordinates through
unmodified. -/
theorem processFrame_fallback_clamped (imageData poseId : String)
    (outcome : RemoteOutcome) (t : ℤ) (randA randB : ℕ → ℚ) (randAcc : ℚ)
    (s : ServiceState)
    (hns : (processFrame imageData poseId outcome t randA randB randAcc s).1.fromServer
      = false) :
    ∀ kp ∈ (processFrame imageData poseId outcome t randA randB randAcc s).1.keypoints,
      0 ≤ kp.position.x ∧ kp.position.x ≤ 1 ∧
      0 ≤ kp.position.y ∧ kp.position.y ≤ 1 := by
  obtain ⟨r, hok, heq, hshape⟩ :=
    processFrame_eq_body imageData poseId outcome t randA randB randAcc s
  rw [heq] at hns ⊢
  rcases hshape with hts | ⟨prevKps, lastKps, hls, hpf, hkeq⟩ | hkeq
  · rw [hts] at hns
    exact Bool.noConfusion hns
  · rw [hkeq]
    exact addNaturalVariation_range randA (interpolateKeypoints prevKps lastKps 0.3)
  · rw [hkeq]
    exact addNaturalVariation_range randB (defaultKeypointsFor poseId)

/-- Witness for the amended C5 claim: with the remote call failing on a
fresh session, the frame is served from the canned default branch
(`fromServer = false`) and every returned coordinate is in [0,1]. -/
theorem processFrame_fallback_clamped_witness :
    (processFrame ("img") ("1-1") RemoteOutcome.failure 6000
        (fun _ => 1/2) (fun _ => 1/2) (1/2) initialState).1.fromServer = false ∧
    ∀ kp ∈ (processFrame ("img") ("1-1") RemoteOutcome.failure 6000
        (fun _ => 1/2) (fun _ => 1/2) (1/2) initialState).1.keypoints,
      0 ≤ kp.position.x ∧ kp.position.x ≤ 1 ∧
      0 ≤ kp.position.y ∧ kp.position.y ≤ 1 :=
  ⟨rfl, processFrame_fallback_clamped ("img") ("1-1") RemoteOutcome.failure 6000
    (fun _ => 1/2) (fun _ => 1/2) (1/2) initialState rfl⟩
